import Mathlib

/-!
A shallow embedding of the rsfs core (redis_fs.go): a FUSE filesystem that
exposes a Redis instance as a two-level hierarchy.  Scalar keys are files,
stream keys are directories, files created under a stream directory are
appended to the stream on flush.

The backing store is modelled as an association list from key names to typed
Redis values.  A go-redis call that can fail is modelled by passing its
outcome explicitly (`CallRes`): a successful value, the redis.Nil sentinel, or
a generic error; on an error go-redis hands back the zero value of the result
type, which `CallRes.retVal` reproduces.  Mutating operations return, next to
their FUSE result, the trace of store commands they issued, so that theorems
can speak about which effects were attempted and in which order.
-/

namespace Rsfs

/-- Byte sequences (Go `[]byte`), each element a byte value. -/
abbrev Bytes := List Nat

/-- Redis key names. -/
abbrev Key := String

/-- UTF-8 encoding of one code point, as in Go's string to byte-slice
conversion. -/
def utf8Bytes (c : Nat) : Bytes :=
  if c < 128 then [c]
  else if c < 2048 then [192 + c / 64, 128 + c % 64]
  else if c < 65536 then [224 + c / 4096, 128 + c / 64 % 64, 128 + c % 64]
  else [240 + c / 262144, 128 + c / 4096 % 64, 128 + c / 64 % 64, 128 + c % 64]

/-- The UTF-8 bytes of a Go string. -/
def strBytes (s : String) : Bytes :=
  (s.data.map (fun c => utf8Bytes c.toNat)).flatten

/-- FNV-1a 64-bit offset basis (hash/fnv). -/
def fnvOffsetBasis : Nat := 14695981039346656037

/-- FNV-1a 64-bit prime (hash/fnv). -/
def fnvPrime : Nat := 1099511628211

/-- One byte of FNV-1a: xor the byte in, then multiply by the prime with
64-bit wraparound. -/
def fnv1aStep (h : Nat) (b : Nat) : Nat := (Nat.xor h b) * fnvPrime % 2 ^ 64

/-- FNV-1a 64-bit hash of a byte sequence. -/
def fnv1a64 (bs : Bytes) : Nat := bs.foldl fnv1aStep fnvOffsetBasis

/-- binary.LittleEndian.PutUint64: the 8 little-endian bytes of a 64-bit
value. -/
def putUint64LE (v : Nat) : Bytes :=
  [v % 256, v / 2 ^ 8 % 256, v / 2 ^ 16 % 256, v / 2 ^ 24 % 256,
   v / 2 ^ 32 % 256, v / 2 ^ 40 % 256, v / 2 ^ 48 % 256, v / 2 ^ 56 % 256]

/-- redisFS.GenerateInode from redis_fs.go.  The source allocates a buffer of
binary.MaxVarintLen64 bytes, fills its first 8 bytes with the little-endian
parent inode, and then never writes that buffer into the hash: only the name
bytes are hashed (`h.Write([]byte(name))` is the sole Write call), so the
result does not depend on `parentInode`. -/
def GenerateInode (parentInode : Nat) (name : String) : Nat :=
  fnv1a64 (strBytes name)

/-- Modelled from the spec: the identifier scheme of section 6 — the FNV-1a
64-bit hash over the little-endian 8-byte parent identifier concatenated with
the UTF-8 name bytes.  Stated separately so it can be compared with
`GenerateInode`, which is translated from the source. -/
def generateInodeSpec (parentInode : Nat) (name : String) : Nat :=
  fnv1a64 (putUint64LE parentInode ++ strBytes name)

/-- One stream entry (redis.XMessage): entry identifier plus its field map. -/
structure XMessage where
  id : String
  values : List (String × Bytes)
deriving DecidableEq

/-- A Redis value, tagged by its TYPE.  `other` covers every type outside
string, list and stream (for example set, hash, zset). -/
inductive RedisVal where
  | str (v : Bytes)
  | list (els : List Bytes)
  | stream (entries : List XMessage)
  | other (t : String)
deriving DecidableEq

/-- The backing store: an ordered association list of key bindings. -/
abbrev Store := List (Key × RedisVal)

/-- The value bound to a key, if any. -/
def Store.get (st : Store) (k : Key) : Option RedisVal :=
  match st with
  | [] => none
  | (k', v) :: rest => if k' = k then some v else Store.get rest k

/-- KEYS *: every key of the store, in store order. -/
def Store.keys (st : Store) : List Key := st.map Prod.fst

/-- Redis TYPE: "none" for a missing key, otherwise the value's type tag. -/
def Store.typeOf (st : Store) (k : Key) : String :=
  match Store.get st k with
  | none => "none"
  | some (RedisVal.str _) => "string"
  | some (RedisVal.list _) => "list"
  | some (RedisVal.stream _) => "stream"
  | some (RedisVal.other t) => t

/-- Bind key `k` to `v`, overwriting an existing binding in place or appending
a new one. -/
def Store.setKey (st : Store) (k : Key) (v : RedisVal) : Store :=
  match st with
  | [] => [(k, v)]
  | (k', v') :: rest =>
      if k' = k then (k, v) :: rest else (k', v') :: Store.setKey rest k v

/-- Outcome of one go-redis call: a result value, the redis.Nil sentinel, or
a generic error. -/
inductive CallRes (α : Type) where
  | ok (v : α)
  | errNil
  | errGeneric
deriving DecidableEq

/-- The value a go-redis `Result()` hands back: on any error it is the zero
value of the result type. -/
def CallRes.retVal {α : Type} [Inhabited α] : CallRes α → α
  | CallRes.ok v => v
  | _ => default

/-- Whether `err == redis.Nil`. -/
def CallRes.isNilErr {α : Type} : CallRes α → Bool
  | CallRes.errNil => true
  | _ => false

/-- Whether `err != nil`. -/
def CallRes.isErr {α : Type} : CallRes α → Bool
  | CallRes.ok _ => false
  | _ => true

/-- Filesystem error codes handed to FUSE; in the source they are
syscall.ENOENT, syscall.EIO and syscall.ENOTSUP. -/
inductive Errno where
  | NotFound
  | IOFailure
  | Unsupported
deriving DecidableEq

/-- redisDir: the root (root = true) or a stream-typed key presented as a
directory (t = "stream"). -/
structure RedisDir where
  root : Bool
  name : String
  t : String
deriving DecidableEq

/-- redisFile: a non-stream key, or a child created under a stream directory
(then `parent` names the stream).  `rb`/`wb` are the read and write buffers,
`ro` the read-only flag. -/
structure RedisFile where
  name : String
  parent : String
  size : Nat
  rb : Bytes
  wb : Bytes
  ro : Bool
deriving DecidableEq

/-- A node handed back to FUSE. -/
inductive FSNode where
  | dir (d : RedisDir)
  | file (f : RedisFile)
deriving DecidableEq

/-- A freshly constructed file node; every field not set at the construction
site carries its Go zero value. -/
def newFile (name parent : String) : RedisFile :=
  { name := name, parent := parent, size := 0, rb := [], wb := [], ro := false }

/-- redisFS.Root: the root directory node. -/
def rootDir : RedisDir := { root := true, name := "", t := "" }

/-- fuse.DirentType: DT_Unknown is the Go zero value, left in place when the
key's type is neither "stream" nor "string". -/
inductive DirentType where
  | unknown
  | dir
  | file
deriving DecidableEq

/-- fuse.Dirent: one entry of a directory listing. -/
structure Dirent where
  name : String
  type : DirentType
deriving DecidableEq

/-- redisDir.Lookup, with the outcomes of the two gateway calls
(`Exists(name)` and `Type(name)`) passed explicitly.  Note that both
not-found checks test `ok != 1`, the count from `Exists`. -/
def redisDir.Lookup (d : RedisDir) (existsRes : CallRes Nat)
    (typeRes : CallRes String) (name : String) : Except Errno FSNode :=
  let ok := CallRes.retVal existsRes
  if CallRes.isNilErr existsRes || ok != 1 then Except.error Errno.NotFound
  else if CallRes.isErr existsRes then Except.error Errno.IOFailure
  else
    let t := CallRes.retVal typeRes
    if CallRes.isNilErr typeRes || ok != 1 then Except.error Errno.NotFound
    else if CallRes.isErr typeRes then Except.error Errno.IOFailure
    else if t = "stream" then
      Except.ok (FSNode.dir { root := false, name := name, t := "stream" })
    else Except.ok (FSNode.file (newFile name ""))

/-- The outcome `Exists(k)` has when the store answers without failure: the
number of existing keys among the arguments. -/
def existsCall (st : Store) (k : Key) : CallRes Nat :=
  CallRes.ok (if (Store.get st k).isSome then 1 else 0)

/-- The outcome `Type(k)` has when the store answers without failure. -/
def typeCall (st : Store) (k : Key) : CallRes String :=
  CallRes.ok (Store.typeOf st k)

/-- Lookup against a store whose gateway calls all succeed. -/
def lookupKey (st : Store) (d : RedisDir) (name : String) : Except Errno FSNode :=
  redisDir.Lookup d (existsCall st name) (typeCall st name) name

/-- redisDir.ReadDirAll on the success path of the gateway: the root lists
every key, tagging stream-typed keys DT_Dir and string-typed keys DT_File and
leaving every other entry's type at its zero value; a non-root directory
reports an empty listing. -/
def redisDir.ReadDirAll (d : RedisDir) (st : Store) : List Dirent :=
  if d.root then
    (Store.keys st).map (fun k =>
      let t := Store.typeOf st k
      { name := k
        type :=
          if t = "stream" then DirentType.dir
          else if t = "string" then DirentType.file
          else DirentType.unknown })
  else []

/-- redisDir.Create: a new writable file node bound to this directory's name
as its stream parent (empty for the root); no store call is made. -/
def redisDir.Create (d : RedisDir) (name : String) : RedisFile :=
  newFile name d.name

/-- One mutating store command issued by the filesystem: SET, XADD with an
explicit entry identifier and a single "blob" field, or XDEL. -/
inductive StoreOp where
  | setStr (k : Key) (v : Bytes)
  | xadd (stream : String) (id : String) (field : String) (v : Bytes)
  | xdel (stream : String) (id : String)
deriving DecidableEq

/-- The key a store command touches. -/
def StoreOp.targetKey : StoreOp → Key
  | StoreOp.setStr k _ => k
  | StoreOp.xadd s _ _ _ => s
  | StoreOp.xdel s _ => s

/-- Apply one successful store command.  XADD appends to an existing stream or
creates the key as a one-entry stream; XDEL removes the entry with the given
identifier; both are only meaningful on stream-typed (or absent) keys. -/
def Store.applyOp (st : Store) : StoreOp → Option Store
  | StoreOp.setStr k v => some (Store.setKey st k (RedisVal.str v))
  | StoreOp.xadd s id fld v =>
      match Store.get st s with
      | none =>
          some (Store.setKey st s (RedisVal.stream [{ id := id, values := [(fld, v)] }]))
      | some (RedisVal.stream es) =>
          some (Store.setKey st s
            (RedisVal.stream (es ++ [{ id := id, values := [(fld, v)] }])))
      | some _ => none
  | StoreOp.xdel s id =>
      match Store.get st s with
      | some (RedisVal.stream es) =>
          some (Store.setKey st s (RedisVal.stream (es.filter (fun e => e.id != id))))
      | _ => none

/-- Apply a trace of store commands in order. -/
def Store.applyOps (st : Store) : List StoreOp → Option Store
  | [] => some st
  | op :: rest =>
      match Store.applyOp st op with
      | none => none
      | some st' => Store.applyOps st' rest

/-- redisDir.Mkdir with the outcomes of the XAdd and XDel calls passed
explicitly: append a dummy entry with identifier "0-1" and field
blob = "dummy" to a stream named exactly `name`, then delete that same entry;
either failure is an I/O failure, success hands back a stream-typed non-root
directory node. -/
def redisDir.Mkdir (d : RedisDir) (xaddRes xdelRes : CallRes String)
    (name : String) : Except Errno FSNode × List StoreOp :=
  let op1 := StoreOp.xadd name "0-1" "blob" (strBytes "dummy")
  if CallRes.isErr xaddRes then (Except.error Errno.IOFailure, [op1])
  else
    let op2 := StoreOp.xdel name "0-1"
    if CallRes.isErr xdelRes then (Except.error Errno.IOFailure, [op1, op2])
    else (Except.ok (FSNode.dir { root := false, name := name, t := "stream" }),
          [op1, op2])

/-- A FUSE open request: whether the flags are read-only and whether it is a
directory open. -/
structure OpenRequest where
  readOnly : Bool
  dir : Bool
deriving DecidableEq

/-- redisFile.Open, translated literally: when the request is read-only and
not a directory open, the source assigns `f.ro = false` (not true). -/
def redisFile.Open (f : RedisFile) (req : OpenRequest) : RedisFile :=
  if req.readOnly && !req.dir then { f with ro := false } else f

/-- redisFile.Write: append the payload to the write buffer and report that
all of it was accepted. -/
def redisFile.Write (f : RedisFile) (data : Bytes) : RedisFile × Nat :=
  ({ f with wb := f.wb ++ data }, data.length)

/-- A sequence of Write calls applied in order. -/
def writeSeq (f : RedisFile) (ws : List Bytes) : RedisFile :=
  ws.foldl (fun g w => (redisFile.Write g w).1) f

/-- redisFile.Flush with the outcome of its one store call passed explicitly.
Returns the FUSE result, the updated node, and the trace of store commands
issued: nothing when the node is read-only; one XADD to the parent stream
with entry identifier `name ++ "-0"` and single field blob = write buffer
when the node has a stream parent; one SET of the scalar key otherwise.  On
success the write buffer is cleared; on failure the node is unchanged. -/
def redisFile.Flush (f : RedisFile) (res : CallRes String) :
    Except Errno Unit × RedisFile × List StoreOp :=
  if f.ro then (Except.ok (), f, [])
  else if f.parent != "" then
    let op := StoreOp.xadd f.parent (f.name ++ "-0") "blob" f.wb
    if CallRes.isErr res then (Except.error Errno.IOFailure, f, [op])
    else (Except.ok (), { f with wb := [] }, [op])
  else
    let op := StoreOp.setStr f.name f.wb
    if CallRes.isErr res then (Except.error Errno.IOFailure, f, [op])
    else (Except.ok (), { f with wb := [] }, [op])

/-- Insert one pair into a key-sorted association list. -/
def sortInsert (p : String × Bytes) : List (String × Bytes) → List (String × Bytes)
  | [] => [p]
  | q :: rest => if p.1 ≤ q.1 then p :: q :: rest else q :: sortInsert p rest

/-- Sort a field map by key, as Go's json.Marshal does for maps. -/
def sortByKey : List (String × Bytes) → List (String × Bytes)
  | [] => []
  | p :: rest => sortInsert p (sortByKey rest)

/-- A byte sequence read back as a Go string. -/
def bytesToString (b : Bytes) : String := String.mk (b.map Char.ofNat)

/-- JSON string escaping of quote and backslash. -/
def jsonEscape (s : String) : String :=
  String.join (s.data.map (fun c =>
    if c = Char.ofNat 34 then "\\\""
    else if c = Char.ofNat 92 then "\\\\"
    else String.singleton c))

/-- A JSON string literal. -/
def jsonStr (s : String) : String := "\"" ++ jsonEscape s ++ "\""

/-- json.Marshal of one redis.XMessage. -/
def jsonXMessage (m : XMessage) : String :=
  "\x7b" ++ jsonStr "ID" ++ ":" ++ jsonStr m.id ++ "," ++ jsonStr "Values" ++
    ":\x7b" ++
    String.intercalate "," ((sortByKey m.values).map
      (fun kv => jsonStr kv.1 ++ ":" ++ jsonStr (bytesToString kv.2))) ++
    "\x7d\x7d"

/-- json.Marshal of the XMessage slice XRange hands back. -/
def jsonMarshalXMessages (ms : List XMessage) : String :=
  "[" ++ String.intercalate "," (ms.map jsonXMessage) ++ "]"

/-- The list branch of reloadFile: each element appended, a newline after
every element except the last. -/
def listJoin : List Bytes → Bytes
  | [] => []
  | [v] => v
  | v :: rest => v ++ 10 :: listJoin rest

/-- redisFile.reloadFile on the success path of the gateway: switch on the
key's TYPE — "string" reads the scalar, "list" joins the elements with
newlines, "stream" serializes the full entry range as JSON, and every other
type (including "none" for a missing key) falls to the default branch, which
is unsupported.  The inner mismatch arms model the WRONGTYPE error the data
command would return if the type changed between the two calls; on a
sequential store they are unreachable. -/
def redisFile.reloadFile (st : Store) (f : RedisFile) : Except Errno RedisFile :=
  let t := Store.typeOf st f.name
  if t = "string" then
    match Store.get st f.name with
    | some (RedisVal.str v) => Except.ok { f with rb := v, size := v.length }
    | _ => Except.error Errno.IOFailure
  else if t = "list" then
    match Store.get st f.name with
    | some (RedisVal.list els) =>
        Except.ok { f with rb := listJoin els, size := (listJoin els).length }
    | _ => Except.error Errno.IOFailure
  else if t = "stream" then
    match Store.get st f.name with
    | some (RedisVal.stream es) =>
        Except.ok { f with rb := strBytes (jsonMarshalXMessages es),
                           size := (strBytes (jsonMarshalXMessages es)).length }
    | _ => Except.error Errno.IOFailure
  else Except.error Errno.Unsupported

/-- redisFile.ReadAll: always reload, then hand back the read buffer. -/
def redisFile.ReadAll (st : Store) (f : RedisFile) : Except Errno Bytes :=
  match redisFile.reloadFile st f with
  | Except.error e => Except.error e
  | Except.ok f' => Except.ok f'.rb

/-- The spec's root-enumeration example store: a string key, a stream key and
a list key. -/
def exStore : Store :=
  [("a", RedisVal.str (strBytes "x")),
   ("s", RedisVal.stream []),
   ("l", RedisVal.list [strBytes "e"])]

/-- A store holding one list key with elements "a", "b", "c". -/
def exListStore : Store :=
  [("l", RedisVal.list [strBytes "a", strBytes "b", strBytes "c"])]

/-- A store holding one key of an unsupported type. -/
def exOtherStore : Store := [("z", RedisVal.other "set")]

/-! ## Helper lemmas -/

theorem Store.get_setKey_self (st : Store) (k : Key) (v : RedisVal) :
    Store.get (Store.setKey st k v) k = some v := by
  induction st with
  | nil => simp [Store.setKey, Store.get]
  | cons p rest ih =>
      obtain ⟨k', v'⟩ := p
      by_cases h : k' = k
      · simp [Store.setKey, h, Store.get]
      · simp [Store.setKey, h, Store.get, ih]

theorem Store.setKey_setKey (st : Store) (k : Key) (v w : RedisVal) :
    Store.setKey (Store.setKey st k v) k w = Store.setKey st k w := by
  induction st with
  | nil => simp [Store.setKey]
  | cons p rest ih =>
      obtain ⟨k', v'⟩ := p
      by_cases h : k' = k
      · simp [Store.setKey, h]
      · simp [Store.setKey, h, ih]

theorem Store.get_of_mem_nodup (st : Store) (hnd : (Store.keys st).Nodup)
    (k : Key) (v : RedisVal) (hm : (k, v) ∈ st) : Store.get st k = some v := by
  induction st with
  | nil => cases hm
  | cons p rest ih =>
      obtain ⟨k', v'⟩ := p
      simp only [Store.keys, List.map_cons, List.nodup_cons] at hnd
      rcases List.mem_cons.mp hm with h | h
      · obtain ⟨hk, hv⟩ := Prod.mk.injEq .. ▸ h
        simp [Store.get, hk.symm, hv]
      · have hk : k' ≠ k := by
          intro he
          exact hnd.1 (he ▸ List.mem_map_of_mem Prod.fst h)
        simp [Store.get, hk, ih hnd.2 h]

theorem writeSeq_wb (ws : List Bytes) : ∀ f : RedisFile,
    writeSeq f ws = { f with wb := f.wb ++ ws.flatten } := by
  induction ws with
  | nil => intro f; simp [writeSeq]
  | cons w rest ih =>
      intro f
      have h1 : writeSeq f (w :: rest) = writeSeq { f with wb := f.wb ++ w } rest := rfl
      rw [h1, ih]
      simp [List.append_assoc]

theorem listJoin_intercalate : ∀ els : List Bytes,
    listJoin els = List.intercalate [10] els
  | [] => by simp [listJoin, List.intercalate]
  | [v] => by simp [listJoin, List.intercalate, List.intersperse]
  | v :: w :: rest => by
      have ih := listJoin_intercalate (w :: rest)
      simp only [List.intercalate, List.intersperse] at ih ⊢
      simp only [listJoin, ih, List.flatten_cons]
      rfl

/-! ## Claim theorems -/

/-- Claim C1: for every file node without a stream parent and every sequence
of write calls with payloads w1..wn followed by a successful flush, a
subsequent readAll returns exactly the concatenation w1++...++wn in call
order.  The flush succeeds, it issues the single scalar SET whose application
binds the key to the concatenated payloads, and readAll against the updated
store returns exactly that concatenation. -/
theorem c1_scalar_write_flush_readAll (name : String) (ws : List Bytes) (st : Store) :
    (redisFile.Flush (writeSeq (newFile name "") ws) (CallRes.ok "")).1 = Except.ok () ∧
    Store.applyOps st (redisFile.Flush (writeSeq (newFile name "") ws) (CallRes.ok "")).2.2
      = some (Store.setKey st name (RedisVal.str ws.flatten)) ∧
    redisFile.ReadAll (Store.setKey st name (RedisVal.str ws.flatten))
      (redisFile.Flush (writeSeq (newFile name "") ws) (CallRes.ok "")).2.1
      = Except.ok ws.flatten := by
  have hw : writeSeq (newFile name "") ws
      = { newFile name "" with wb := ws.flatten } := by
    rw [writeSeq_wb]
    simp [newFile]
  rw [hw]
  refine ⟨?_, ?_, ?_⟩
  · simp [redisFile.Flush, newFile, CallRes.isErr]
  · simp [redisFile.Flush, newFile, CallRes.isErr, Store.applyOps, Store.applyOp]
  · simp [redisFile.Flush, newFile, CallRes.isErr, redisFile.ReadAll,
          redisFile.reloadFile, Store.typeOf, Store.get_setKey_self]

/-- Claim C2: the claim says the node identifier equals the FNV-1a 64-bit
hash of the 8 little-endian parent bytes concatenated with the name bytes, so
that equal names under different parents normally receive different
identifiers.  The source fills that little-endian buffer but never writes it
into the hash, so the identifier is the hash of the name alone: parents 1 and
2 with the same name "a" collide, while the spec's scheme separates them and
disagrees with the code already at parent 1. -/
theorem c2_inode_ignores_parent :
    GenerateInode 1 "a" = GenerateInode 2 "a" ∧
    generateInodeSpec 1 "a" ≠ generateInodeSpec 2 "a" ∧
    GenerateInode 1 "a" ≠ generateInodeSpec 1 "a" :=
  ⟨rfl, by decide, by decide⟩

/-- Claim C3: the claim says a file opened read-only is not flushed to the
store.  The source's Open assigns ro := false (not true) on a read-only
non-directory request, so the flag can never become true: after a read-only
open of the scalar file "k" and a write of "x", flush issues the scalar SET
of "k" — a store mutation — and Open even clears a read-only flag that was
already set. -/
theorem c3_readonly_open_still_flushes :
    (redisFile.Open (newFile "k" "") { readOnly := true, dir := false }).ro = false ∧
    (redisFile.Open { newFile "k" "" with ro := true }
        { readOnly := true, dir := false }).ro = false ∧
    (redisFile.Flush
        (redisFile.Write
          (redisFile.Open (newFile "k" "") { readOnly := true, dir := false })
          (strBytes "x")).1
        (CallRes.ok "")).2.2
      = [StoreOp.setStr "k" (strBytes "x")] := by
  refine ⟨rfl, rfl, ?_⟩
  rfl

/-- Claim C4, counterexample: a failing existence check (a generic gateway
error, not the not-found sentinel) is surfaced by Lookup as NotFound, because
the zero count returned alongside the error already trips the `ok != 1`
check — contradicting the claim that such failures are never reported as
NotFound. -/
theorem c4_exists_failure_reported_notfound :
    redisDir.Lookup rootDir CallRes.errGeneric (CallRes.ok "string") "k"
      = Except.error Errno.NotFound := rfl

/-- Claim C4, amended: when every gateway call succeeds, lookup fails with
NotFound exactly when the key is absent; a failing existence check (generic
error) is surfaced as NotFound, because its zero count is indistinguishable
from absence; a generic failure of the type query after a successful
existence check is surfaced as IOFailure. -/
theorem c4_lookup_error_mapping (st : Store) (d : RedisDir) (k : String) :
    (lookupKey st d k = Except.error Errno.NotFound ↔ Store.get st k = none) ∧
    (∀ typeRes : CallRes String,
        redisDir.Lookup d CallRes.errGeneric typeRes k = Except.error Errno.NotFound) ∧
    redisDir.Lookup d (CallRes.ok 1) CallRes.errGeneric k
      = Except.error Errno.IOFailure := by
  refine ⟨?_, fun typeRes => rfl, rfl⟩
  unfold lookupKey redisDir.Lookup existsCall typeCall
  cases hg : Store.get st k with
  | none => simp [hg, CallRes.retVal, CallRes.isNilErr, CallRes.isErr]
  | some v =>
      simp [hg, CallRes.retVal, CallRes.isNilErr, CallRes.isErr]
      split <;> simp

/-- Claim C5, counterexample: on the spec's own example store containing a
string key "a", a stream key "s" and a list key "l", root enumeration
produces an entry for every key — "l" is present with the zero dirent type,
not omitted from the listing as the claim states. -/
theorem c5_list_key_is_listed :
    redisDir.ReadDirAll rootDir exStore =
      [{ name := "a", type := DirentType.file },
       { name := "s", type := DirentType.dir },
       { name := "l", type := DirentType.unknown }] := rfl

/-- Claim C5, amended: root enumeration reports one entry per key in store
order — stream-typed keys as directory entries, string-typed keys as file
entries — and a key of any other type (for example list) is still included
in the listing, with the unknown (zero) entry type, rather than omitted. -/
theorem c5_root_enumeration (st : Store) (hnd : (Store.keys st).Nodup) :
    (redisDir.ReadDirAll rootDir st).map Dirent.name = Store.keys st ∧
    (∀ k es, (k, RedisVal.stream es) ∈ st →
       ({ name := k, type := DirentType.dir } : Dirent)
         ∈ redisDir.ReadDirAll rootDir st) ∧
    (∀ k bs, (k, RedisVal.str bs) ∈ st →
       ({ name := k, type := DirentType.file } : Dirent)
         ∈ redisDir.ReadDirAll rootDir st) ∧
    (∀ k els, (k, RedisVal.list els) ∈ st →
       ({ name := k, type := DirentType.unknown } : Dirent)
         ∈ redisDir.ReadDirAll rootDir st) := by
  refine ⟨?_, ?_, ?_, ?_⟩
  · simp [redisDir.ReadDirAll, rootDir, List.map_map, Function.comp_def]
  · intro k es hm
    have ht : Store.typeOf st k = "stream" := by
      simp [Store.typeOf, Store.get_of_mem_nodup st hnd k _ hm]
    simp only [redisDir.ReadDirAll, rootDir, if_true]
    refine List.mem_map.mpr ⟨k, List.mem_map_of_mem Prod.fst hm, ?_⟩
    simp [ht]
  · intro k bs hm
    have ht : Store.typeOf st k = "string" := by
      simp [Store.typeOf, Store.get_of_mem_nodup st hnd k _ hm]
    simp only [redisDir.ReadDirAll, rootDir, if_true]
    refine List.mem_map.mpr ⟨k, List.mem_map_of_mem Prod.fst hm, ?_⟩
    simp [ht]
  · intro k els hm
    have ht : Store.typeOf st k = "list" := by
      simp [Store.typeOf, Store.get_of_mem_nodup st hnd k _ hm]
    simp only [redisDir.ReadDirAll, rootDir, if_true]
    refine List.mem_map.mpr ⟨k, List.mem_map_of_mem Prod.fst hm, ?_⟩
    simp [ht]

/-- Witness for C5: on the example store the claim's hypotheses hold, the
listing's names are exactly the keys, and the list key "l" appears with the
unknown entry type. -/
theorem c5_root_enumeration_witness :
    ({ name := "l", type := DirentType.unknown } : Dirent)
      ∈ redisDir.ReadDirAll rootDir exStore ∧
    (redisDir.ReadDirAll rootDir exStore).map Dirent.name = Store.keys exStore := by
  have h := c5_root_enumeration exStore (by decide)
  exact ⟨h.2.2.2 "l" [strBytes "e"] (by decide), h.1⟩

/-- Claim C6: for every non-read-only file node, flush with a stream parent
issues exactly one stream append whose entry identifier is the file's name
suffixed with "-0" and whose single field carries the buffered bytes; without
a stream parent it issues exactly one scalar SET whose application overwrites
the key with the buffered bytes; on success the write buffer is cleared, and
on store failure the result is IOFailure with the node (its write buffer
included) unchanged. -/
theorem c6_flush_effect (f : RedisFile) (res : CallRes String) (h : f.ro = false) :
    (f.parent ≠ "" →
      (redisFile.Flush f res).2.2
        = [StoreOp.xadd f.parent (f.name ++ "-0") "blob" f.wb]) ∧
    (f.parent = "" →
      (redisFile.Flush f res).2.2 = [StoreOp.setStr f.name f.wb] ∧
      ∀ st : Store, Store.applyOps st (redisFile.Flush f res).2.2
        = some (Store.setKey st f.name (RedisVal.str f.wb))) ∧
    (res.isErr = false →
      (redisFile.Flush f res).1 = Except.ok ()
        ∧ (redisFile.Flush f res).2.1 = { f with wb := [] }) ∧
    (res.isErr = true →
      (redisFile.Flush f res).1 = Except.error Errno.IOFailure
        ∧ (redisFile.Flush f res).2.1 = f) := by
  by_cases hp : f.parent = ""
  · cases res <;>
      simp [redisFile.Flush, h, hp, CallRes.isErr, Store.applyOps, Store.applyOp]
  · cases res <;>
      simp [redisFile.Flush, h, hp, CallRes.isErr]

/-- Witness for C6: a writable file "k" with stream parent "p" and buffered
bytes "hi" flushes as one append to stream "p" with entry identifier "k-0",
and the buffer is cleared on success. -/
theorem c6_flush_effect_witness :
    (redisFile.Flush { newFile "k" "p" with wb := strBytes "hi" }
        (CallRes.ok "")).2.2
      = [StoreOp.xadd "p" ("k" ++ "-0") "blob" (strBytes "hi")] ∧
    (redisFile.Flush { newFile "k" "p" with wb := strBytes "hi" }
        (CallRes.ok "")).2.1
      = { newFile "k" "p" with wb := ([] : Bytes) } := by
  have h := c6_flush_effect { newFile "k" "p" with wb := strBytes "hi" }
    (CallRes.ok "") rfl
  exact ⟨h.1 (by decide), (h.2.2.1 rfl).2⟩

/-- Claim C7: for every list-typed key with at least one element, readAll
returns the elements joined by a single newline between consecutive elements
and no trailing newline. -/
theorem c7_list_readAll (st : Store) (k : Key) (els : List Bytes)
    (hg : Store.get st k = some (RedisVal.list els)) (hne : els ≠ []) :
    redisFile.ReadAll st (newFile k "") = Except.ok (List.intercalate [10] els) := by
  have ht : Store.typeOf st k = "list" := by simp [Store.typeOf, hg]
  simp [redisFile.ReadAll, redisFile.reloadFile, newFile, ht, hg,
        listJoin_intercalate]

/-- Witness for C7: for the list key with elements "a", "b", "c", readAll
returns the bytes of "a\nb\nc". -/
theorem c7_list_readAll_witness :
    redisFile.ReadAll exListStore (newFile "l" "") = Except.ok (strBytes "a\nb\nc") := by
  have h := c7_list_readAll exListStore "l"
    [strBytes "a", strBytes "b", strBytes "c"] (by decide) (by decide)
  have e : List.intercalate [10] [strBytes "a", strBytes "b", strBytes "c"]
      = strBytes "a\nb\nc" := by decide
  rw [h, e]

/-- Claim C8: for every existing key whose store type is outside
{string, list, stream}, lookup succeeds with a File node — and lookup can
never fail with Unsupported, whatever the gateway answers — while a
subsequent readAll on that node fails with Unsupported: the type gating
happens only in reload. -/
theorem c8_unsupported_gated_in_reload (st : Store) (k : Key) (t : String)
    (hg : Store.get st k = some (RedisVal.other t))
    (h1 : t ≠ "string") (h2 : t ≠ "list") (h3 : t ≠ "stream") :
    lookupKey st rootDir k = Except.ok (FSNode.file (newFile k "")) ∧
    (∀ (d : RedisDir) (er : CallRes Nat) (tr : CallRes String) (n : String),
        redisDir.Lookup d er tr n ≠ Except.error Errno.Unsupported) ∧
    redisFile.ReadAll st (newFile k "") = Except.error Errno.Unsupported := by
  have ht : Store.typeOf st k = t := by simp [Store.typeOf, hg]
  refine ⟨?_, ?_, ?_⟩
  · simp [lookupKey, redisDir.Lookup, existsCall, typeCall, hg, ht,
          CallRes.retVal, CallRes.isNilErr, CallRes.isErr, h3]
  · intro d er tr n
    unfold redisDir.Lookup
    repeat' split
    all_goals try simp
    all_goals repeat' split
    all_goals try simp
  · simp [redisFile.ReadAll, redisFile.reloadFile, newFile, ht, h1, h2, h3]

/-- Witness for C8: on a store whose key "z" holds a set-typed value, lookup
returns a File node and readAll fails with Unsupported. -/
theorem c8_unsupported_witness :
    lookupKey exOtherStore rootDir "z" = Except.ok (FSNode.file (newFile "z" "")) ∧
    redisFile.ReadAll exOtherStore (newFile "z" "") = Except.error Errno.Unsupported := by
  have h := c8_unsupported_gated_in_reload exOtherStore "z" "set" rfl
    (by decide) (by decide) (by decide)
  exact ⟨h.1, h.2.2⟩

/-- Claim C9: creating a stream directory appends exactly one dummy entry
with the fixed identifier "0-1" to a stream named by the request and then
deletes exactly that entry; a failing append stops the operation with
IOFailure after the one append, a failing delete leaves IOFailure with no
rollback op after the two commands, and on success the node handed back is a
stream-typed non-root directory while applying the two commands to a store
without the key leaves it bound to an entryless stream. -/
theorem c9_mkdir_placeholder (d : RedisDir) (name : String)
    (r1 r2 : CallRes String) :
    (r1.isErr = true →
       redisDir.Mkdir d r1 r2 name
         = (Except.error Errno.IOFailure,
            [StoreOp.xadd name "0-1" "blob" (strBytes "dummy")])) ∧
    (r1.isErr = false → r2.isErr = true →
       redisDir.Mkdir d r1 r2 name
         = (Except.error Errno.IOFailure,
            [StoreOp.xadd name "0-1" "blob" (strBytes "dummy"),
             StoreOp.xdel name "0-1"])) ∧
    (r1.isErr = false → r2.isErr = false →
       redisDir.Mkdir d r1 r2 name
         = (Except.ok (FSNode.dir { root := false, name := name, t := "stream" }),
            [StoreOp.xadd name "0-1" "blob" (strBytes "dummy"),
             StoreOp.xdel name "0-1"]) ∧
       ∀ st : Store, Store.get st name = none →
         Store.applyOps st (redisDir.Mkdir d r1 r2 name).2
           = some (Store.setKey st name (RedisVal.stream [])) ∧
         Store.typeOf (Store.setKey st name (RedisVal.stream [])) name
           = "stream") := by
  refine ⟨?_, ?_, ?_⟩
  · intro h1
    cases r1 with
    | ok v => simp [CallRes.isErr] at h1
    | errNil => rfl
    | errGeneric => rfl
  · intro h1 h2
    cases r1 with
    | ok v =>
        cases r2 with
        | ok w => simp [CallRes.isErr] at h2
        | errNil => rfl
        | errGeneric => rfl
    | errNil => simp [CallRes.isErr] at h1
    | errGeneric => simp [CallRes.isErr] at h1
  · intro h1 h2
    cases r1 with
    | ok v =>
        cases r2 with
        | ok w =>
            refine ⟨rfl, ?_⟩
            intro st hst
            constructor
            · simp [redisDir.Mkdir, CallRes.isErr, Store.applyOps, Store.applyOp,
                    hst, Store.get_setKey_self, Store.setKey_setKey, XMessage.id]
            · simp [Store.typeOf, Store.get_setKey_self]
        | errNil => simp [CallRes.isErr] at h2
        | errGeneric => simp [CallRes.isErr] at h2
    | errNil => simp [CallRes.isErr] at h1
    | errGeneric => simp [CallRes.isErr] at h1

/-- Witness for C9: creating the stream directory "events" on an empty store
issues the dummy append and its delete, returns the stream-typed non-root
directory node, and leaves "events" bound to an entryless stream. -/
theorem c9_mkdir_witness :
    redisDir.Mkdir rootDir (CallRes.ok "") (CallRes.ok "") "events"
      = (Except.ok (FSNode.dir { root := false, name := "events", t := "stream" }),
         [StoreOp.xadd "events" "0-1" "blob" (strBytes "dummy"),
          StoreOp.xdel "events" "0-1"]) ∧
    Store.applyOps []
        (redisDir.Mkdir rootDir (CallRes.ok "") (CallRes.ok "") "events").2
      = some [("events", RedisVal.stream [])] := by
  have h := (c9_mkdir_placeholder rootDir "events"
    (CallRes.ok "") (CallRes.ok "")).2.2 rfl rfl
  refine ⟨h.1, ?_⟩
  have h2 := (h.2 [] rfl).1
  simpa [Store.setKey] using h2

/-- Claim C10: the stream-directory creation targets the backing-store key
that is exactly the requested name — its result and command trace are
independent of the directory node it is invoked on, and every command it
issues targets the key `name` with no parent-path prefixing. -/
theorem c10_mkdir_ignores_receiver (d d' : RedisDir) (r1 r2 : CallRes String)
    (name : String) :
    redisDir.Mkdir d r1 r2 name = redisDir.Mkdir d' r1 r2 name ∧
    ((redisDir.Mkdir d r1 r2 name).2.all
        (fun op => StoreOp.targetKey op == name)) = true := by
  refine ⟨rfl, ?_⟩
  cases r1 <;> cases r2 <;>
    simp [redisDir.Mkdir, StoreOp.targetKey, CallRes.isErr]

end Rsfs
